import Mathlib

/-!
Verification of the dress-catalogue Streamlit application (`src/app.py`)
against its natural-language specification.

The external collaborators (Google Sheets worksheets, the GitHub content
API, the PIL image decoder) are modelled as explicit data:
a worksheet is a header row plus a list of rows of cells, an HTTP response
is a status code plus a payload, an uploaded file either decodes to an
image of known dimensions or fails to decode.  Every function of the
source that the claims touch is translated below, keeping its Python
name.  Python `str` values are Lean `String`s; spreadsheet cells are
either text or numbers; Python's binary floating point is modelled
exactly as rational arithmetic with an explicit IEEE-754 binary64
rounding step (`roundDouble`).
-/

set_option maxRecDepth 100000

namespace MyShop

/-! ### Python string primitives (character-list based, so they evaluate) -/

/-- ASCII whitespace recognised by Python's `str.strip()` (space, tab,
newline, carriage return, vertical tab, form feed).  Non-ASCII whitespace
is not modelled. -/
def isSpaceChar (c : Char) : Bool :=
  c.toNat == 32 || c.toNat == 9 || c.toNat == 10 || c.toNat == 13 || c.toNat == 11 || c.toNat == 12

/-- Python `s.strip()`. -/
def pyStrip (s : String) : String :=
  String.mk (((s.data.dropWhile isSpaceChar).reverse.dropWhile isSpaceChar).reverse)

/-- Lower-case one ASCII character (Python `str.lower` restricted to ASCII). -/
def lowerChar (c : Char) : Char :=
  if 65 ≤ c.toNat ∧ c.toNat ≤ 90 then Char.ofNat (c.toNat + 32) else c

/-- Python `s.lower()` (ASCII). -/
def pyLower (s : String) : String :=
  String.mk (s.data.map lowerChar)

/-- Python `s.replace(a, b)` for single-character pattern and replacement,
as used by `admin_panel` for `replace(" ", "_")`. -/
def pyReplaceChar (s : String) (a b : Char) : String :=
  String.mk (s.data.map (fun c => if c.toNat == a.toNat then b else c))

/-- Python `s.strip("/")`: remove leading and trailing slashes. -/
def stripSlashes (s : String) : String :=
  String.mk (((s.data.dropWhile (fun c => c.toNat == 47)).reverse.dropWhile
    (fun c => c.toNat == 47)).reverse)

def charsOpenWith : List Char → List Char → Bool
  | [], _ => true
  | _ :: _, [] => false
  | a :: as, b :: bs => a.toNat == b.toNat && charsOpenWith as bs

/-- Python `s.startswith(p)`. -/
def strStartsWith (p s : String) : Bool := charsOpenWith p.data s.data

/-! ### Spreadsheet cells, worksheets, records -/

/-- A Google-Sheets cell as surfaced by `gspread.get_all_records`: either a
text value or a numeric value.  (Numeric cells come back as Python numbers;
`str()` of such a cell prints its decimal representation.) -/
inductive Cell where
  | str (s : String)
  | num (n : Int)
deriving DecidableEq

/-- Python `str(v)` on a cell value. -/
def Cell.toStr : Cell → String
  | .str s => s
  | .num n => toString n

/-- A worksheet: header row (row 1, `sheet.row_values(1)`) and the data
rows below it. -/
structure Sheet where
  header : List String
  rows : List (List Cell)
deriving DecidableEq

/-- Index of the first occurrence of `k` in `l`; `Python list.index` /
membership, and the column lookup of `dict(zip(header, row))`. -/
def firstIdx? (l : List String) (k : String) : Option Nat :=
  match l with
  | [] => none
  | h :: t => if h == k then some 0 else (firstIdx? t k).map (· + 1)

/-- Column access used by `load_data`: a record field when the column
exists, else the empty string that `df[c] = ""` fills in.
`get_all_records` pads short rows with empty cells. -/
def getCol (header : List String) (row : List Cell) (c : String) : Cell :=
  match firstIdx? header c with
  | some i => row.getD i (Cell.str "")
  | none => Cell.str ""

/-- Python `str(record.get(k))`: the stringified field of a record built by
`get_all_records`, `"None"` when the column does not exist (`str(None)`). -/
def recordGetStr (header : List String) (row : List Cell) (k : String) : String :=
  match firstIdx? header k with
  | some i => (row.getD i (Cell.str "")).toStr
  | none => "None"

/-! ### Exact rational values

`Frac` is an unreduced fraction `n / d` (`d` is kept positive by
construction).  It is the carrier both for `pd.to_numeric` results and for
the exact value of every IEEE-754 double that `app.py` computes. -/

structure Frac where
  n : Int
  d : Nat
deriving DecidableEq

/-- Value comparison `x < y` of fractions (cross multiplication). -/
def Frac.blt (x y : Frac) : Bool := decide (x.n * (y.d : Int) < y.n * (x.d : Int))

/-- Python `int(x)`: truncation toward zero. -/
def Frac.trunc (x : Frac) : Int := x.n.tdiv (x.d : Int)

/-- The `math.floor`-style floor of a fraction. -/
def Frac.floorI (x : Frac) : Int := x.n.fdiv (x.d : Int)

/-- Python `round(x)` with no digits argument: round half to even, exact on
the rational value of the (binary64) argument. -/
def roundHalfEven (x : Frac) : Int :=
  let f := x.floorI
  let r2 := 2 * (x.n - f * (x.d : Int))
  if r2 < (x.d : Int) then f
  else if (x.d : Int) < r2 then f + 1
  else if f % 2 == 0 then f else f + 1

/-- Maximum of a list of fractions by value (`pandas Series.max` over the
non-NaN entries), `none` for the empty list. -/
def maxFrac? (l : List Frac) : Option Frac :=
  l.foldl (fun acc v =>
    match acc with
    | none => some v
    | some m => some (if Frac.blt m v then v else m)) none

/-! ### IEEE-754 binary64 rounding, modelled exactly on rationals

`app.py` computes `input_price * (1 - input_discount / 100.0)` in Python
floats.  Each arithmetic step produces the binary64 nearest (ties-to-even)
rounding of the exact result; `roundDouble` is that rounding function for
the normal range (overflow and subnormals never arise for the values the
program handles). -/

def dblLo : Int := 4503599627370496
def dblHi : Int := 9007199254740992

/-- Scale `n / d` up by powers of two until it reaches `2 ^ 52` (fuelled). -/
def scaleUp : Nat → Int → Nat → Int → Int × Nat × Int
  | 0, n, d, e => (n, d, e)
  | fuel + 1, n, d, e =>
    if n < dblLo * (d : Int) then scaleUp fuel (2 * n) d (e - 1) else (n, d, e)

/-- Scale `n / d` down by powers of two until it is below `2 ^ 53` (fuelled). -/
def scaleDown : Nat → Int → Nat → Int → Int × Nat × Int
  | 0, n, d, e => (n, d, e)
  | fuel + 1, n, d, e =>
    if dblHi * (d : Int) ≤ n then scaleDown fuel n (2 * d) (e + 1) else (n, d, e)

/-- Nearest binary64 of a positive rational `n / d`: normalise the
significand into `[2^52, 2^53)`, round half to even, reapply the scale. -/
def roundDoublePos (n : Int) (d : Nat) : Frac :=
  let s1 := scaleUp 5000 n d 0
  let s2 := scaleDown 5000 s1.1 s1.2.1 s1.2.2
  let m := roundHalfEven ⟨s2.1, s2.2.1⟩
  let e := s2.2.2
  if 0 ≤ e then ⟨m * ((2 : Int) ^ e.toNat), 1⟩ else ⟨m, 2 ^ (-e).toNat⟩

/-- Exact value of the binary64 nearest to the rational `x`. -/
def roundDouble (x : Frac) : Frac :=
  if x.n = 0 then ⟨0, 1⟩
  else if 0 < x.n then roundDoublePos x.n x.d
  else
    let r := roundDoublePos (-x.n) x.d
    ⟨-r.n, r.d⟩

/-- Exact difference of two fractions. -/
def Frac.subF (x y : Frac) : Frac := ⟨x.n * (y.d : Int) - y.n * (x.d : Int), x.d * y.d⟩

/-- Exact product of two fractions. -/
def Frac.mulF (x y : Frac) : Frac := ⟨x.n * y.n, x.d * y.d⟩

/-- Python `int(round(input_price * (1 - (input_discount / 100.0))))` exactly as
CPython evaluates it: `input_discount / 100.0` is a correctly rounded
binary64 division, `1 - _` a correctly rounded subtraction, the `int`
factor is converted to binary64 and multiplied with correct rounding, and
`round` is exact round-half-to-even on the resulting double. -/
def expectedPriceSrc (price discount : Nat) : Int :=
  let dq := roundDouble ⟨(discount : Int), 100⟩
  let oneMinus := roundDouble (Frac.subF ⟨1, 1⟩ dq)
  let prod := roundDouble (Frac.mulF (roundDouble ⟨(price : Int), 1⟩) oneMinus)
  roundHalfEven prod

/-- The specification's formula `round(price * (1 - discount/100))`, read
in exact arithmetic with Python's `round` (half to even).  This definition
follows the spec's words and is compared against `expectedPriceSrc`, the
translation of the source. -/
def expectedPriceSpec (price discount : Nat) : Int :=
  roundHalfEven ⟨(price : Int) * (100 - (discount : Int)), 100⟩

/-! ### `pd.to_numeric(errors="coerce")` on a cell -/

def isDigitChar (c : Char) : Bool := 48 ≤ c.toNat && c.toNat ≤ 57

def digitsToNat (cs : List Char) : Nat := cs.foldl (fun a c => a * 10 + (c.toNat - 48)) 0

/-- Parse an optionally signed decimal literal (`"12"`, `"-3.5"`, `" 7 "`,
`".5"`, `"5."`) the way `pd.to_numeric(errors="coerce")` does; anything
else coerces to NaN (`none`).  Scientific notation is not modelled. -/
def parseNumCore (cs : List Char) : Option Frac :=
  let sgnRest : Int × List Char :=
    match cs with
    | c :: t => if c.toNat == 45 then (-1, t) else if c.toNat == 43 then (1, t) else (1, cs)
    | [] => (1, [])
  let sgn := sgnRest.1
  let rest := sgnRest.2
  let intPart := rest.takeWhile isDigitChar
  let rest2 := rest.dropWhile isDigitChar
  match rest2 with
  | [] => if intPart.isEmpty then none else some ⟨sgn * (digitsToNat intPart : Int), 1⟩
  | c :: t =>
    if c.toNat == 46 then
      let fracPart := t.takeWhile isDigitChar
      let rest3 := t.dropWhile isDigitChar
      if rest3.isEmpty && decide (0 < intPart.length + fracPart.length) then
        some ⟨sgn * ((digitsToNat intPart * 10 ^ fracPart.length + digitsToNat fracPart : Nat) : Int),
              10 ^ fracPart.length⟩
      else none
    else none

def parseNumStr (s : String) : Option Frac := parseNumCore (pyStrip s).data

/-- Numeric coercion of a cell: numeric cells are already numbers, text
cells go through the string parser. -/
def parseCellNum : Cell → Option Frac
  | .num n => some ⟨n, 1⟩
  | .str s => parseNumStr s

/-! ### `load_data` (src/app.py lines 46-71) -/

/-- The truthy-token set of `load_data`'s `sold` lambda. -/
def truthyTokens : List String := ["true", "yes", "y", "1"]

/-- The lambda `True if str(v).strip().lower() in ["true","yes","y","1"] else False`. -/
def soldOfCell (v : Cell) : Bool := truthyTokens.contains (pyLower (pyStrip v.toStr))

/-- Pandas `pd.to_numeric(likes, errors="coerce").fillna(0).astype(int)` applied
to one cell: parse, default NaN to 0, truncate toward zero. -/
def likesOfCell (v : Cell) : Int :=
  match parseCellNum v with
  | some q => q.trunc
  | none => 0

/-- One normalized catalogue row as produced by `load_data`: `sold` is
coerced to a boolean, `likes` to an integer, `id` to a number where
possible (`none` is pandas NaN); the remaining expected columns are kept
as loaded. -/
structure Item where
  id : Option Frac
  name : Cell
  price : Cell
  discount : Cell
  expected_price : Cell
  image_url : Cell
  sold : Bool
  likes : Int
deriving DecidableEq

def itemOfRow (header : List String) (row : List Cell) : Item :=
  { id := parseCellNum (getCol header row "id")
    name := getCol header row "name"
    price := getCol header row "price"
    discount := getCol header row "discount"
    expected_price := getCol header row "expected_price"
    image_url := getCol header row "image_url"
    sold := soldOfCell (getCol header row "sold")
    likes := likesOfCell (getCol header row "likes") }

/-- Function `load_data()`: read every record of the catalogue worksheet and
normalize the expected columns.  (The fallback from the named worksheet to
the first sheet happens before this point; the function receives the
worksheet it ends up reading.) -/
def load_data (s : Sheet) : List Item := s.rows.map (itemOfRow s.header)

/-! ### Sheet write helpers (src/app.py lines 154-191) -/

/-- Python `row_dict.get(h, "")`. -/
def dictGet (d : List (String × Cell)) (k : String) : Cell :=
  match d.find? (fun kv => kv.1 == k) with
  | some kv => kv.2
  | none => Cell.str ""

/-- Function `append_row_to_sheet_dict`: build the positional row
`[row_dict.get(h, "") for h in headers]` and append it. -/
def append_row_to_sheet_dict (s : Sheet) (rowDict : List (String × Cell)) : Sheet :=
  { s with rows := s.rows ++ [s.header.map (fun h => dictGet rowDict h)] }

/-- Gspread `sheet.update_cell` at 0-based column `i`: the grid cell exists at any
coordinate, so a short row is padded with empty cells up to `i` first. -/
def setCell (row : List Cell) (i : Nat) (v : Cell) : List Cell :=
  (row ++ List.replicate (i + 1 - row.length) (Cell.str "")).set i v

/-- The inner loop of `update_sheet_row_by_id`: for each `(k, v)` of
`update_dict` with `k in headers`, update the cell in column
`headers.index(k)`. -/
def applyUpdates (header : List String) (row : List Cell) (upd : List (String × Cell)) :
    List Cell :=
  upd.foldl (fun r kv =>
    match firstIdx? header kv.1 with
    | some i => setCell r i kv.2
    | none => r) row

/-- The row scan of `update_sheet_row_by_id`: first row whose stringified
`id` field equals the given id is updated and the scan returns `True`
immediately; no match returns `False`. -/
def updateRows (header : List String) (itemId : String) (upd : List (String × Cell)) :
    List (List Cell) → List (List Cell) × Bool
  | [] => ([], false)
  | r :: rs =>
    if recordGetStr header r "id" == itemId then
      (applyUpdates header r upd :: rs, true)
    else
      let p := updateRows header itemId upd rs
      (r :: p.1, p.2)

/-- Function `update_sheet_row_by_id(item_id, update_dict)` (the id argument arrives
as a string and the code compares `str(r.get("id")) == str(item_id)`). -/
def update_sheet_row_by_id (s : Sheet) (itemId : String) (upd : List (String × Cell)) :
    Sheet × Bool :=
  let p := updateRows s.header itemId upd s.rows
  ({ s with rows := p.1 }, p.2)

/-! ### SHA-256 (`hashlib.sha256(...).hexdigest()`), executable -/

def rotr32 (n x : Nat) : Nat := (x >>> n) ||| ((x <<< (32 - n)) &&& 0xffffffff)

def add32 (l : List Nat) : Nat := l.foldl (· + ·) 0 % 4294967296

def bSig0 (x : Nat) : Nat := rotr32 2 x ^^^ rotr32 13 x ^^^ rotr32 22 x
def bSig1 (x : Nat) : Nat := rotr32 6 x ^^^ rotr32 11 x ^^^ rotr32 25 x
def sSig0 (x : Nat) : Nat := rotr32 7 x ^^^ rotr32 18 x ^^^ (x >>> 3)
def sSig1 (x : Nat) : Nat := rotr32 17 x ^^^ rotr32 19 x ^^^ (x >>> 10)
def chF (x y z : Nat) : Nat := (x &&& y) ^^^ ((x ^^^ 0xffffffff) &&& z)
def majF (x y z : Nat) : Nat := (x &&& y) ^^^ (x &&& z) ^^^ (y &&& z)

/-- The 64 SHA-256 round constants, written in decimal. -/
def k256 : List Nat :=
  [1116352408, 1899447441, 3049323471, 3921009573, 961987163, 1508970993,
   2453635748, 2870763221, 3624381080, 310598401, 607225278, 1426881987,
   1925078388, 2162078206, 2614888103, 3248222580, 3835390401, 4022224774,
   264347078, 604807628, 770255983, 1249150122, 1555081692, 1996064986,
   2554220882, 2821834349, 2952996808, 3210313671, 3336571891, 3584528711,
   113926993, 338241895, 666307205, 773529912, 1294757372, 1396182291,
   1695183700, 1986661051, 2177026350, 2456956037, 2730485921, 2820302411,
   3259730800, 3345764771, 3516065817, 3600352804, 4094571909, 275423344,
   430227734, 506948616, 659060556, 883997877, 958139571, 1322822218,
   1537002063, 1747873779, 1955562222, 2024104815, 2227730452, 2361852424,
   2428436474, 2756734187, 3204031479, 3329325298]

/-- The eight SHA-256 initial hash words, written in decimal. -/
def initH : List Nat :=
  [1779033703, 3144134277, 1013904242, 2773480762,
   1359893119, 2600822924, 528734635, 1541459225]

/-- Big-endian 32-bit words from a byte list. -/
def bytesToWords : List Nat → List Nat
  | b0 :: b1 :: b2 :: b3 :: rest => (((b0 * 256 + b1) * 256 + b2) * 256 + b3) :: bytesToWords rest
  | _ => []

/-- Message-schedule extension `W[16..63]`. -/
def schedExtend : Nat → List Nat → List Nat
  | 0, w => w
  | n + 1, w =>
    let i := w.length
    let nw := add32 [w.getD (i - 16) 0, sSig0 (w.getD (i - 15) 0), w.getD (i - 7) 0,
      sSig1 (w.getD (i - 2) 0)]
    schedExtend n (w ++ [nw])

/-- One compression round on the state `[a,b,c,d,e,f,g,h]`. -/
def roundStep (w : List Nat) (st : List Nat) (t : Nat) : List Nat :=
  match st with
  | [a, b, c, d, e, f, g, h] =>
    let t1 := add32 [h, bSig1 e, chF e f g, k256.getD t 0, w.getD t 0]
    let t2 := add32 [bSig0 a, majF a b c]
    [add32 [t1, t2], a, b, c, add32 [d, t1], e, f, g]
  | st => st

def compressBlock (h : List Nat) (block : List Nat) : List Nat :=
  let w := schedExtend 48 (bytesToWords block)
  let fin := (List.range 64).foldl (roundStep w) h
  List.zipWith (fun x y => (x + y) % 4294967296) h fin

/-- Split a byte list into 64-byte blocks (fuelled structural recursion). -/
def blocksGo : Nat → List Nat → List (List Nat)
  | 0, _ => []
  | _, [] => []
  | n + 1, bytes => bytes.take 64 :: blocksGo n (bytes.drop 64)

/-- SHA-256 padding: `0x80`, zeros, 64-bit big-endian bit length. -/
def padMsg (msg : List Nat) : List Nat :=
  let L := msg.length
  let padZeros := (64 - ((L + 9) % 64)) % 64
  let bits := L * 8
  msg ++ [0x80] ++ List.replicate padZeros 0 ++
    [(bits >>> 56) &&& 255, (bits >>> 48) &&& 255, (bits >>> 40) &&& 255, (bits >>> 32) &&& 255,
     (bits >>> 24) &&& 255, (bits >>> 16) &&& 255, (bits >>> 8) &&& 255, bits &&& 255]

def hexDigitChar (n : Nat) : Char := if n < 10 then Char.ofNat (48 + n) else Char.ofNat (87 + n)

def wordHex (w : Nat) : List Char :=
  (List.range 8).map (fun i => hexDigitChar ((w >>> ((7 - i) * 4)) &&& 15))

/-- Lowercase hex digest of the SHA-256 of a byte list. -/
def sha256Hex (msg : List Nat) : String :=
  let padded := padMsg msg
  let hFin := (blocksGo (padded.length / 64 + 1) padded).foldl compressBlock initH
  String.mk (hFin.foldl (fun acc w => acc ++ wordHex w) [])

/-- UTF-8 encoding of one code point. -/
def utf8EncChar (n : Nat) : List Nat :=
  if n < 0x80 then [n]
  else if n < 0x800 then [0xc0 ||| (n >>> 6), 0x80 ||| (n &&& 0x3f)]
  else if n < 0x10000 then
    [0xe0 ||| (n >>> 12), 0x80 ||| ((n >>> 6) &&& 0x3f), 0x80 ||| (n &&& 0x3f)]
  else
    [0xf0 ||| (n >>> 18), 0x80 ||| ((n >>> 12) &&& 0x3f), 0x80 ||| ((n >>> 6) &&& 0x3f),
     0x80 ||| (n &&& 0x3f)]

/-- Python `password.encode("utf-8")`. -/
def utf8Bytes (s : String) : List Nat := s.data.foldl (fun acc c => acc ++ utf8EncChar c.toNat) []

/-! ### Admin directory (src/app.py lines 194-241) -/

/-- Function `hash_password`: `hashlib.sha256(password.encode("utf-8")).hexdigest()`. -/
def hash_password (password : String) : String := sha256Hex (utf8Bytes password)

/-- Function `verify_admin_login`: the admins worksheet may be absent (the
`sh.worksheet("admins")` lookup raises and the function returns `False`);
otherwise scan all records for a row whose trimmed username matches and
whose stored hash equals the hash of the given password. -/
def verify_admin_login (admins : Option Sheet) (username password : String) : Bool :=
  match admins with
  | none => false
  | some ws =>
    let hashedInput := hash_password password
    ws.rows.any (fun r =>
      pyStrip (recordGetStr ws.header r "username") == pyStrip username
        && recordGetStr ws.header r "hashed_password" == hashedInput)

/-- Function `signup_admin`: create the admins worksheet with its header row when it
is absent, then append `[username, hash_password(password)]` positionally. -/
def signup_admin (admins : Option Sheet) (username password : String) : Sheet :=
  match admins with
  | none =>
    { header := ["username", "hashed_password"],
      rows := [[Cell.str username, Cell.str (hash_password password)]] }
  | some ws => { ws with rows := ws.rows ++ [[Cell.str username, Cell.str (hash_password password)]] }

/-! ### GitHub asset publisher (src/app.py lines 78-132) -/

/-- One entry of the recursive tree listing (`typ` is the JSON `type`
field). -/
structure TreeEntry where
  typ : String
  path : String
  size : Nat
deriving DecidableEq

/-- Outcome of the `requests.get` on the tree API: a raised exception, or a
response with a status code and (possibly empty) `tree` payload. -/
inductive TreeResp where
  | netError
  | ok (status : Nat) (tree : List TreeEntry)
deriving DecidableEq

/-- The configuration surface and the remote responses the GitHub helpers
observe. -/
structure GithubEnv where
  owner : String
  repo : String
  branch : String
  imagesPath : String
  placeholderImage : String
  maxRepoBytes : Nat
  treeResp : TreeResp
  putStatus : Nat
deriving DecidableEq

/-- Function `get_images_folder_size`: 0 on a raised exception or a non-200 status,
otherwise the sum of `size` over blob entries whose path starts with
`images_path + "/"`. -/
def get_images_folder_size (env : GithubEnv) : Nat :=
  match env.treeResp with
  | .netError => 0
  | .ok status tree =>
    if status ≠ 200 then 0
    else
      let imagesPath := stripSlashes env.imagesPath
      tree.foldl (fun total item =>
        if item.typ == "blob" && strStartsWith (imagesPath ++ "/") item.path then
          total + item.size
        else total) 0

/-- The deterministic public URL returned on a successful upload. -/
def raw_url (env : GithubEnv) (filename : String) : String :=
  "https://raw.githubusercontent.com/" ++ env.owner ++ "/" ++ env.repo ++ "/" ++ env.branch
    ++ "/" ++ stripSlashes env.imagesPath ++ "/" ++ filename

/-- Function `upload_image_to_github_bytes`: the PUT succeeds with status 200 or
201 and yields the raw URL, any other status reports failure (`None`).
The preliminary GET for an existing blob's sha only shapes the request
payload and is not observable in this model. -/
def upload_image_to_github_bytes (env : GithubEnv) (_imageBytesLen : Nat) (filename : String) :
    Option String :=
  if env.putStatus == 200 || env.putStatus == 201 then some (raw_url env filename) else none

/-! ### Image pipeline (src/app.py lines 135-151) -/

/-- A decoded source image: dimensions, plus the (abstract) length of the
JPEG bytes the encoder will produce for it. -/
structure SrcImage where
  width : Nat
  height : Nat
  jpegSize : Nat
deriving DecidableEq

/-- A file-like upload: it decodes to an image, or `Image.open` raises. -/
inductive FileLike where
  | decodable (img : SrcImage)
  | corrupt
deriving DecidableEq

/-- The re-encoded JPEG produced by the pipeline: output dimensions, the
quality it was encoded at, and the byte length handed to the uploader. -/
structure JpegBytes where
  width : Nat
  height : Nat
  quality : Nat
  size : Nat
deriving DecidableEq

/-- Function `compress_image_file`: decode (any failure yields `None`), downscale
to `max_width` preserving aspect ratio when wider
(`new_h = int(max_width * h / w)`, floor division in exact arithmetic),
then re-encode as JPEG at the given quality. -/
def compress_image_file (f : FileLike) (maxWidth quality : Nat) : Option JpegBytes :=
  match f with
  | .corrupt => none
  | .decodable img =>
    if maxWidth < img.width then
      some { width := maxWidth, height := maxWidth * img.height / img.width,
             quality := quality, size := img.jpegSize }
    else
      some { width := img.width, height := img.height, quality := quality, size := img.jpegSize }

/-! ### Admin add-item orchestration (src/app.py lines 319-364) -/

inductive AdminStatus where
  | ok
  | validationFailed
  | imageFailed
deriving DecidableEq

/-- Observable outcome of one submission of the add-item form: the final
catalogue worksheet, whether an upload PUT was issued, and the row dict
passed to `append_row_to_sheet_dict` (if the flow got that far). -/
structure AdminOut where
  status : AdminStatus
  sheet : Sheet
  uploadAttempted : Bool
  appendedRow : Option (List (String × Cell))
deriving DecidableEq

/-- The id assignment `new_id`: `int(df["id"].max()) + 1`, where a failing `int()` (empty
table or no numeric id at all, i.e. a NaN maximum) falls back to 1. -/
def newIdOfSheet (s : Sheet) : Int :=
  match maxFrac? ((load_data s).filterMap Item.id) with
  | some m => m.trunc + 1
  | none => 1

/-- The `row_dict` literal of `admin_panel`. -/
def adminRowDict (newId : Int) (name : String) (price discount : Nat) (expectedPrice : Int)
    (imageUrl : String) (sold : Bool) : List (String × Cell) :=
  [("id", Cell.num newId), ("name", Cell.str name), ("price", Cell.num (price : Int)),
   ("discount", Cell.num (discount : Int)), ("expected_price", Cell.num expectedPrice),
   ("image_url", Cell.str imageUrl), ("sold", Cell.str (if sold then "TRUE" else "FALSE")),
   ("likes", Cell.num 0)]

/-- The submitted branch of `admin_panel` (lines 319-364): validate
presence of image and name, run the image pipeline, evaluate the quota
gate, upload or fall back to the placeholder, assign the id, compute the
expected price and append the row. -/
def admin_submit (env : GithubEnv) (s : Sheet) (inputName : String)
    (inputPrice inputDiscount : Nat) (inputSold : Bool) (uploadedFile : Option FileLike) :
    AdminOut :=
  match uploadedFile with
  | none => { status := .validationFailed, sheet := s, uploadAttempted := false, appendedRow := none }
  | some f =>
    if inputName == "" then
      { status := .validationFailed, sheet := s, uploadAttempted := false, appendedRow := none }
    else
      match compress_image_file f 1200 85 with
      | none => { status := .imageFailed, sheet := s, uploadAttempted := false, appendedRow := none }
      | some compressed =>
        let maxBytes := env.maxRepoBytes
        let currentSize := get_images_folder_size env
        let baseFn := pyReplaceChar (pyLower (pyStrip inputName)) ' ' '_'
        let filename := baseFn ++ ".jpg"
        let attemptUrl : Bool × String :=
          if maxBytes < currentSize + compressed.size then
            (false, env.placeholderImage)
          else
            match upload_image_to_github_bytes env compressed.size filename with
            | some rawUrl => (true, rawUrl)
            | none => (true, env.placeholderImage)
        let newId := newIdOfSheet s
        let expectedPrice := expectedPriceSrc inputPrice inputDiscount
        let rowDict := adminRowDict newId inputName inputPrice inputDiscount expectedPrice
          attemptUrl.2 inputSold
        { status := .ok, sheet := append_row_to_sheet_dict s rowDict,
          uploadAttempted := attemptUrl.1, appendedRow := some rowDict }

/-- The update dict written by the "Toggle Sold Status" branch
(src/app.py lines 379-381). -/
def toggle_sold_update_dict (newStatus : Bool) : List (String × Cell) :=
  [("sold", Cell.str (if newStatus then "TRUE" else "FALSE"))]

/-! ### Derived definitions used in theorem statements -/

/-- The quota-gate branch of `admin_submit` in isolation: whether an upload
is attempted, and the image URL the appended row receives. -/
def adminImageUrl (env : GithubEnv) (inputName : String) (jb : JpegBytes) : Bool × String :=
  if env.maxRepoBytes < get_images_folder_size env + jb.size then
    (false, env.placeholderImage)
  else
    match upload_image_to_github_bytes env jb.size
        (pyReplaceChar (pyLower (pyStrip inputName)) ' ' '_' ++ ".jpg") with
    | some rawUrl => (true, rawUrl)
    | none => (true, env.placeholderImage)

/-- Index of the first row whose stringified `id` field equals `itemId`. -/
def matchIdx? (header : List String) (itemId : String) : List (List Cell) → Option Nat
  | [] => none
  | r :: rs =>
    if recordGetStr header r "id" == itemId then some 0
    else (matchIdx? header itemId rs).map (· + 1)

/-! ### Concrete fixtures for witnesses and counterexamples -/

/-- The canonical catalogue header (spec section 6). -/
def stdHeader : List String :=
  ["id", "name", "price", "discount", "expected_price", "image_url", "sold", "likes"]

/-- A one-row catalogue worksheet. -/
def demoSheet : Sheet :=
  { header := stdHeader,
    rows := [[Cell.num 7, Cell.str "a", Cell.num 100, Cell.num 0, Cell.num 100,
      Cell.str "u", Cell.str "TRUE", Cell.num 3]] }

/-- A worksheet whose `likes` cell holds a negative number. -/
def negLikesSheet : Sheet :=
  { header := stdHeader,
    rows := [[Cell.num 1, Cell.str "a", Cell.num 5, Cell.num 0, Cell.num 5,
      Cell.str "u", Cell.str "no", Cell.num (-5)]] }

/-- Environment of the quota-gate scenario from the spec: the images folder
already holds 400000000 bytes against a 500000000-byte maximum. -/
def quotaEnv : GithubEnv :=
  { owner := "o", repo := "r", branch := "main", imagesPath := "images",
    placeholderImage := "https://example.com/placeholder.png", maxRepoBytes := 500000000,
    treeResp := .ok 200 [⟨"blob", "images/a.jpg", 400000000⟩], putStatus := 201 }

/-- Environment where the folder is empty but the content PUT fails
with status 500. -/
def failPutEnv : GithubEnv :=
  { quotaEnv with treeResp := .ok 200 [], putStatus := 500 }

/-- A decodable upload whose compressed form is 150000000 bytes long. -/
def bigImage : SrcImage := ⟨2400, 1000, 150000000⟩

/-- A small decodable upload. -/
def smallImage : SrcImage := ⟨800, 600, 1000⟩

/-! ### Helper lemmas -/

lemma firstIdx?_of_mem {l : List String} {k : String} (h : k ∈ l) :
    ∃ i, firstIdx? l k = some i := by
  induction l with
  | nil => cases h
  | cons a t ih =>
    cases hb : (a == k) with
    | true => exact ⟨0, by simp [firstIdx?, hb]⟩
    | false =>
      have hkt : k ∈ t := by
        rcases List.mem_cons.mp h with h1 | h1
        · subst h1
          simp at hb
        · exact h1
      obtain ⟨i, hi⟩ := ih hkt
      exact ⟨i + 1, by simp [firstIdx?, hb, hi]⟩

lemma getD_map_firstIdx? {l : List String} {k : String} {i : Nat}
    (h : firstIdx? l k = some i) (f : String → Cell) :
    (l.map f).getD i (Cell.str "") = f k := by
  induction l generalizing i with
  | nil => simp [firstIdx?] at h
  | cons a t ih =>
    cases hb : (a == k) with
    | true =>
      have ha : a = k := beq_iff_eq.mp hb
      simp only [firstIdx?, hb, if_true] at h
      obtain rfl : (0 : Nat) = i := Option.some_inj.mp h
      simp [ha]
    | false =>
      simp only [firstIdx?, hb, Bool.false_eq_true, if_false] at h
      cases hft : firstIdx? t k with
      | none => rw [hft] at h; simp at h
      | some j =>
        rw [hft] at h
        simp only [Option.map_some'] at h
        obtain rfl : j + 1 = i := Option.some_inj.mp h
        simpa using ih hft

lemma getCol_map_dictGet {header : List String} {k : String} (d : List (String × Cell))
    (hk : k ∈ header) :
    getCol header (header.map (fun h => dictGet d h)) k = dictGet d k := by
  obtain ⟨i, hi⟩ := firstIdx?_of_mem hk
  unfold getCol
  rw [hi]
  exact getD_map_firstIdx? hi _

lemma load_data_append (s : Sheet) (d : List (String × Cell)) :
    load_data (append_row_to_sheet_dict s d) =
      load_data s ++ [itemOfRow s.header (s.header.map (fun h => dictGet d h))] := by
  simp [load_data, append_row_to_sheet_dict]

lemma admin_submit_eq (env : GithubEnv) (s : Sheet) {inputName : String}
    (inputPrice inputDiscount : Nat) (inputSold : Bool) {f : FileLike} {jb : JpegBytes}
    (hname : (inputName == "") = false) (hjb : compress_image_file f 1200 85 = some jb) :
    admin_submit env s inputName inputPrice inputDiscount inputSold (some f) =
      { status := .ok,
        sheet := append_row_to_sheet_dict s (adminRowDict (newIdOfSheet s) inputName inputPrice
          inputDiscount (expectedPriceSrc inputPrice inputDiscount)
          (adminImageUrl env inputName jb).2 inputSold),
        uploadAttempted := (adminImageUrl env inputName jb).1,
        appendedRow := some (adminRowDict (newIdOfSheet s) inputName inputPrice inputDiscount
          (expectedPriceSrc inputPrice inputDiscount) (adminImageUrl env inputName jb).2
          inputSold) } := by
  simp only [admin_submit, hname, hjb, adminImageUrl, Bool.false_eq_true, if_false]

/-- Sanity anchor: the SHA-256 implementation reproduces the FIPS 180-2
test vector for "abc". -/
lemma sha256Hex_abc :
    sha256Hex (utf8Bytes "abc")
      = "ba7816bf8f01cfea414140de5dae2223b00361a396177a9cb410ff61f20015ad" := by
  decide

/-! ### Claims -/

/-- Claim C1: in the admin add-item orchestration, the quota gate compares
the current images-folder size plus the compressed byte length against the
configured maximum; whenever that sum exceeds the maximum, no upload is
attempted and the appended item's `image_url` is the configured
placeholder URL. -/
theorem C1_quota_gate (env : GithubEnv) (s : Sheet) (inputName : String)
    (inputPrice inputDiscount : Nat) (inputSold : Bool) (f : FileLike) (jb : JpegBytes)
    (hname : (inputName == "") = false)
    (hjb : compress_image_file f 1200 85 = some jb)
    (hquota : env.maxRepoBytes < get_images_folder_size env + jb.size) :
    (admin_submit env s inputName inputPrice inputDiscount inputSold
        (some f)).uploadAttempted = false ∧
    ∃ r, (admin_submit env s inputName inputPrice inputDiscount inputSold
        (some f)).appendedRow = some r ∧
      dictGet r "image_url" = Cell.str env.placeholderImage := by
  have hurl : adminImageUrl env inputName jb = (false, env.placeholderImage) := by
    unfold adminImageUrl
    rw [if_pos hquota]
  rw [admin_submit_eq env s inputPrice inputDiscount inputSold hname hjb]
  rw [hurl]
  exact ⟨rfl, _, rfl, rfl⟩

/-- Witness for C1, at the spec's own numbers: 400000000 bytes used,
500000000 maximum, a 150000000-byte compressed image. -/
theorem C1_quota_gate_witness :
    get_images_folder_size quotaEnv = 400000000 ∧
    quotaEnv.maxRepoBytes = 500000000 ∧
    ((admin_submit quotaEnv demoSheet "My Dress" 349 7 false
        (some (.decodable bigImage))).uploadAttempted = false ∧
      ∃ r, (admin_submit quotaEnv demoSheet "My Dress" 349 7 false
          (some (.decodable bigImage))).appendedRow = some r ∧
        dictGet r "image_url" = Cell.str quotaEnv.placeholderImage) :=
  ⟨by decide, by decide,
    C1_quota_gate quotaEnv demoSheet "My Dress" 349 7 false (.decodable bigImage)
      ⟨1200, 500, 85, 150000000⟩ (by decide) (by decide) (by decide)⟩

/-- Claim C2 counterexample: a publisher-upload failure does not prevent
the catalogue append.  With the PUT returning status 500 the upload is
attempted and fails (`upload_image_to_github_bytes` reports `None`), yet
the flow completes and appends a row. -/
theorem C2_counterexample :
    upload_image_to_github_bytes failPutEnv 1000 "my_dress.jpg" = none ∧
    (admin_submit failPutEnv demoSheet "My Dress" 349 7 true
        (some (.decodable smallImage))).uploadAttempted = true ∧
    (admin_submit failPutEnv demoSheet "My Dress" 349 7 true
        (some (.decodable smallImage))).status = AdminStatus.ok ∧
    (admin_submit failPutEnv demoSheet "My Dress" 349 7 true
        (some (.decodable smallImage))).sheet.rows.length = demoSheet.rows.length + 1 ∧
    (admin_submit failPutEnv demoSheet "My Dress" 349 7 true
        (some (.decodable smallImage))).appendedRow.isSome = true := by
  decide

/-- Claim C2 (amended): a submission missing the image or the name is
rejected with no append, no upload attempt and the sheet unchanged; an
image-processing failure likewise aborts with no partial write; but a
publisher-upload failure does not prevent the append — the item is
appended anyway with the placeholder URL as its `image_url`. -/
theorem C2_abort_behaviour (env : GithubEnv) (s : Sheet) (inputName : String)
    (inputPrice inputDiscount : Nat) (inputSold : Bool) :
    (admin_submit env s inputName inputPrice inputDiscount inputSold none =
      { status := .validationFailed, sheet := s, uploadAttempted := false,
        appendedRow := none }) ∧
    (∀ f, (inputName == "") = true →
      admin_submit env s inputName inputPrice inputDiscount inputSold (some f) =
        { status := .validationFailed, sheet := s, uploadAttempted := false,
          appendedRow := none }) ∧
    (∀ f, (inputName == "") = false → compress_image_file f 1200 85 = none →
      admin_submit env s inputName inputPrice inputDiscount inputSold (some f) =
        { status := .imageFailed, sheet := s, uploadAttempted := false,
          appendedRow := none }) ∧
    (∀ f jb, (inputName == "") = false → compress_image_file f 1200 85 = some jb →
      ¬ env.maxRepoBytes < get_images_folder_size env + jb.size →
      upload_image_to_github_bytes env jb.size
        (pyReplaceChar (pyLower (pyStrip inputName)) ' ' '_' ++ ".jpg") = none →
      (admin_submit env s inputName inputPrice inputDiscount inputSold
          (some f)).uploadAttempted = true ∧
      (admin_submit env s inputName inputPrice inputDiscount inputSold
          (some f)).status = AdminStatus.ok ∧
      ∃ r, (admin_submit env s inputName inputPrice inputDiscount inputSold
          (some f)).appendedRow = some r ∧
        dictGet r "image_url" = Cell.str env.placeholderImage ∧
        (admin_submit env s inputName inputPrice inputDiscount inputSold
          (some f)).sheet = append_row_to_sheet_dict s r) := by
  refine ⟨rfl, ?_, ?_, ?_⟩
  · intro f h
    simp [admin_submit, h]
  · intro f h hc
    simp [admin_submit, h, hc]
  · intro f jb h hc hq hup
    have hurl : adminImageUrl env inputName jb = (true, env.placeholderImage) := by
      unfold adminImageUrl
      rw [if_neg hq, hup]
    rw [admin_submit_eq env s inputPrice inputDiscount inputSold h hc, hurl]
    exact ⟨rfl, rfl, _, rfl, rfl, rfl⟩

/-- Witness for the amended C2, exercising every branch at concrete
inputs: missing image, missing name, corrupt image, and a failing upload
that still appends with the placeholder. -/
theorem C2_abort_behaviour_witness :
    (admin_submit failPutEnv demoSheet "x" 1 0 false none =
      { status := .validationFailed, sheet := demoSheet, uploadAttempted := false,
        appendedRow := none }) ∧
    (admin_submit failPutEnv demoSheet "" 1 0 false (some (.decodable smallImage)) =
      { status := .validationFailed, sheet := demoSheet, uploadAttempted := false,
        appendedRow := none }) ∧
    (admin_submit failPutEnv demoSheet "x" 1 0 false (some .corrupt) =
      { status := .imageFailed, sheet := demoSheet, uploadAttempted := false,
        appendedRow := none }) ∧
    ((admin_submit failPutEnv demoSheet "My Dress" 349 7 false
        (some (.decodable smallImage))).uploadAttempted = true ∧
      (admin_submit failPutEnv demoSheet "My Dress" 349 7 false
        (some (.decodable smallImage))).status = AdminStatus.ok ∧
      ∃ r, (admin_submit failPutEnv demoSheet "My Dress" 349 7 false
          (some (.decodable smallImage))).appendedRow = some r ∧
        dictGet r "image_url" = Cell.str failPutEnv.placeholderImage ∧
        (admin_submit failPutEnv demoSheet "My Dress" 349 7 false
          (some (.decodable smallImage))).sheet = append_row_to_sheet_dict demoSheet r) :=
  ⟨(C2_abort_behaviour failPutEnv demoSheet "x" 1 0 false).1,
   (C2_abort_behaviour failPutEnv demoSheet "" 1 0 false).2.1 _ (by decide),
   (C2_abort_behaviour failPutEnv demoSheet "x" 1 0 false).2.2.1 .corrupt (by decide) (by decide),
   (C2_abort_behaviour failPutEnv demoSheet "My Dress" 349 7 false).2.2.2
     (.decodable smallImage) ⟨800, 600, 85, 1000⟩ (by decide) (by decide) (by decide) (by decide)⟩

lemma parseNumCore_den_pos (cs : List Char) {q : Frac} (h : parseNumCore cs = some q) :
    0 < q.d := by
  unfold parseNumCore at h
  dsimp only at h
  split at h
  · split at h
    · exact absurd h (by simp)
    · obtain rfl : _ = q := Option.some_inj.mp h
      exact Nat.one_pos
  · split at h
    · split at h
      · obtain rfl : _ = q := Option.some_inj.mp h
        exact Nat.pos_pow_of_pos _ (by omega)
      · exact absurd h (by simp)
    · exact absurd h (by simp)

lemma parseCellNum_den_pos {c : Cell} {q : Frac} (h : parseCellNum c = some q) : 0 < q.d := by
  cases c with
  | num n =>
    obtain rfl : _ = q := Option.some_inj.mp h
    exact Nat.one_pos
  | str s => exact parseNumCore_den_pos _ h

/-- Relation `¬ blt m x` is transitive through a middle value when all denominators
are positive (value-level `x ≤ m`). -/
lemma not_blt_trans {x v m : Frac} (hx : 0 < x.d) (hv : 0 < v.d) (hm : 0 < m.d)
    (h1 : Frac.blt v x = false) (h2 : Frac.blt m v = false) : Frac.blt m x = false := by
  unfold Frac.blt at *
  rw [decide_eq_false_iff_not] at *
  push_neg at *
  have hdx : (0 : Int) < (x.d : Int) := by exact_mod_cast hx
  have hdv : (0 : Int) < (v.d : Int) := by exact_mod_cast hv
  have hdm : (0 : Int) < (m.d : Int) := by exact_mod_cast hm
  nlinarith [mul_le_mul_of_nonneg_right h1 (le_of_lt hdm),
    mul_le_mul_of_nonneg_right h2 (le_of_lt hdx)]

lemma maxFrac?_go (l : List Frac) (a : Frac) (hl : ∀ x ∈ l, 0 < x.d) (ha : 0 < a.d) :
    ∃ m, (l.foldl (fun acc v =>
        match acc with
        | none => some v
        | some m => some (if Frac.blt m v then v else m)) (some a)) = some m ∧
      (m = a ∨ m ∈ l) ∧ Frac.blt m a = false ∧ ∀ x ∈ l, Frac.blt m x = false := by
  induction l generalizing a with
  | nil => exact ⟨a, rfl, .inl rfl, by simp [Frac.blt], by simp⟩
  | cons v t ih =>
    have hv : 0 < v.d := hl v (by simp)
    have ht : ∀ x ∈ t, 0 < x.d := fun x hx => hl x (List.mem_cons_of_mem _ hx)
    by_cases hb : Frac.blt a v = true
    · obtain ⟨m, hm, hmem, hma, hall⟩ := ih v ht hv
      refine ⟨m, by simpa [hb] using hm, ?_, ?_, ?_⟩
      · rcases hmem with rfl | hmem
        · exact .inr (by simp)
        · exact .inr (List.mem_cons_of_mem _ hmem)
      · -- a < v ≤ m, so ¬ m < a
        have hd : 0 < m.d := by
          rcases hmem with rfl | hmem
          · exact hv
          · exact ht m hmem
        have hav : Frac.blt v a = false := by
          unfold Frac.blt at *
          rw [decide_eq_true_eq] at hb
          rw [decide_eq_false_iff_not]
          push_neg
          nlinarith
        exact not_blt_trans ha hv hd hav hma
      · intro x hx
        rcases List.mem_cons.mp hx with rfl | hx
        · exact hma
        · exact hall x hx
    · have hb' : Frac.blt a v = false := by
        cases h : Frac.blt a v
        · rfl
        · exact absurd h hb
      obtain ⟨m, hm, hmem, hma, hall⟩ := ih a ht ha
      refine ⟨m, by simpa [hb'] using hm, ?_, hma, ?_⟩
      · rcases hmem with rfl | hmem
        · exact .inl rfl
        · exact .inr (List.mem_cons_of_mem _ hmem)
      · intro x hx
        have hd : 0 < m.d := by
          rcases hmem with rfl | hmem
          · exact ha
          · exact ht m hmem
        rcases List.mem_cons.mp hx with rfl | hx
        · exact not_blt_trans hv ha hd hb' hma
        · exact hall x hx

/-- The result `maxFrac?` of a nonempty list of positive-denominator fractions really
is a maximum: it is an element and no element is value-greater. -/
lemma maxFrac?_spec {l : List Frac} {m : Frac} (hl : ∀ x ∈ l, 0 < x.d)
    (h : maxFrac? l = some m) : m ∈ l ∧ ∀ x ∈ l, Frac.blt m x = false := by
  cases l with
  | nil => simp [maxFrac?] at h
  | cons a t =>
    have ha : 0 < a.d := hl a (by simp)
    have ht : ∀ x ∈ t, 0 < x.d := fun x hx => hl x (List.mem_cons_of_mem _ hx)
    obtain ⟨m', hm', hmem, hma, hall⟩ := maxFrac?_go t a ht ha
    have : maxFrac? (a :: t) = some m' := by simpa [maxFrac?] using hm'
    obtain rfl : m' = m := Option.some_inj.mp (this.symm.trans h)
    refine ⟨?_, ?_⟩
    · rcases hmem with rfl | hmem
      · simp
      · exact List.mem_cons_of_mem _ hmem
    · intro x hx
      rcases List.mem_cons.mp hx with rfl | hx
      · exact hma
      · exact hall x hx

lemma maxFrac?_go_isSome (l : List Frac) (a : Frac) :
    ∃ m, (l.foldl (fun acc v =>
        match acc with
        | none => some v
        | some m => some (if Frac.blt m v then v else m)) (some a)) = some m := by
  induction l generalizing a with
  | nil => exact ⟨a, rfl⟩
  | cons v t ih => exact ih (if Frac.blt a v then v else a)

lemma maxFrac?_eq_none {l : List Frac} : maxFrac? l = none ↔ l = [] := by
  cases l with
  | nil => simp [maxFrac?]
  | cons a t =>
    simp only [maxFrac?]
    constructor
    · intro h
      exfalso
      obtain ⟨m, hm⟩ := maxFrac?_go_isSome t a
      rw [List.foldl_cons] at h
      rw [show (List.foldl _ (some a) t) = some m from hm] at h
      cases h
    · intro h
      cases h

/-- Claim C3: the appended item's id is `max(existing ids) + 1`, or 1 for
an empty (or wholly non-numeric) table, and an append followed by
`load_data` yields exactly the old rows plus one new row carrying that id.
`maxFrac?` is genuinely the maximum of the parsed ids: it is one of them
and no parsed id is greater. -/
theorem C3_id_assignment (env : GithubEnv) (s : Sheet) (inputName : String)
    (inputPrice inputDiscount : Nat) (inputSold : Bool) (img : SrcImage)
    (hname : (inputName == "") = false) (hid : "id" ∈ s.header) :
    ∃ it, load_data (admin_submit env s inputName inputPrice inputDiscount inputSold
        (some (.decodable img))).sheet = load_data s ++ [it] ∧
      it.id = some ⟨newIdOfSheet s, 1⟩ ∧
      (s.rows = [] → newIdOfSheet s = 1) ∧
      ((load_data s).filterMap Item.id = [] → newIdOfSheet s = 1) ∧
      (∀ m, maxFrac? ((load_data s).filterMap Item.id) = some m →
        newIdOfSheet s = m.trunc + 1 ∧ m ∈ (load_data s).filterMap Item.id ∧
        ∀ x ∈ (load_data s).filterMap Item.id, Frac.blt m x = false) := by
  obtain ⟨jb, hjb⟩ : ∃ jb, compress_image_file (.decodable img) 1200 85 = some jb := by
    dsimp only [compress_image_file]
    by_cases h : 1200 < img.width
    · rw [if_pos h]
      exact ⟨_, rfl⟩
    · rw [if_neg h]
      exact ⟨_, rfl⟩
  rw [admin_submit_eq env s inputPrice inputDiscount inputSold hname hjb]
  refine ⟨_, load_data_append s _, ?_, ?_, ?_, ?_⟩
  · show (itemOfRow s.header _).id = _
    unfold itemOfRow
    rw [getCol_map_dictGet _ hid]
    rfl
  · intro h
    simp [newIdOfSheet, load_data, h, maxFrac?]
  · intro h
    simp [newIdOfSheet, h, maxFrac?]
  · intro m hm
    have hpos : ∀ x ∈ (load_data s).filterMap Item.id, 0 < x.d := by
      intro x hx
      obtain ⟨it, hit, hid'⟩ := List.mem_filterMap.mp hx
      obtain ⟨row, hrow, rfl⟩ := List.mem_map.mp hit
      exact parseCellNum_den_pos hid'
    obtain ⟨hmem, hall⟩ := maxFrac?_spec hpos hm
    exact ⟨by simp [newIdOfSheet, hm], hmem, hall⟩

/-- Witness for C3: appending to the one-row sheet whose maximal id is 7
produces one new row with id 8; its parts are discharged at that sheet. -/
theorem C3_id_assignment_witness :
    ∃ it, load_data (admin_submit failPutEnv demoSheet "x" 5 0 false
        (some (.decodable smallImage))).sheet = load_data demoSheet ++ [it] ∧
      it.id = some ⟨newIdOfSheet demoSheet, 1⟩ ∧
      (demoSheet.rows = [] → newIdOfSheet demoSheet = 1) ∧
      ((load_data demoSheet).filterMap Item.id = [] → newIdOfSheet demoSheet = 1) ∧
      (∀ m, maxFrac? ((load_data demoSheet).filterMap Item.id) = some m →
        newIdOfSheet demoSheet = m.trunc + 1 ∧
        m ∈ (load_data demoSheet).filterMap Item.id ∧
        ∀ x ∈ (load_data demoSheet).filterMap Item.id, Frac.blt m x = false) :=
  C3_id_assignment failPutEnv demoSheet "x" 5 0 false smallImage (by decide)
    (by decide)

/-- Claim C4 counterexample: `load_data` does not force `likes` to be
non-negative — a raw `likes` cell holding the number -5 is returned
as the integer -5. -/
theorem C4_counterexample :
    ¬ (∀ it ∈ load_data negLikesSheet, 0 ≤ it.likes) := by decide

/-- Claim C4 (amended): for every row returned by `load_data`, `sold` is
strictly boolean — true exactly when the raw cell, trimmed and lowercased,
is one of "true", "yes", "y", "1" — and `likes` is an integer: a
non-parseable cell is coerced to 0, a parseable one is truncated to its
integer value (so negative raw values survive, and non-negativity is not
guaranteed). -/
theorem C4_load_normalization (s : Sheet) (it : Item) (hmem : it ∈ load_data s) :
    ∃ row ∈ s.rows, it = itemOfRow s.header row ∧
      (it.sold = true ↔ pyLower (pyStrip (getCol s.header row "sold").toStr) ∈ truthyTokens) ∧
      (parseCellNum (getCol s.header row "likes") = none → it.likes = 0) ∧
      (∀ q, parseCellNum (getCol s.header row "likes") = some q → it.likes = q.trunc) := by
  obtain ⟨row, hrow, rfl⟩ := List.mem_map.mp hmem
  refine ⟨row, hrow, rfl, ?_, ?_, ?_⟩
  · show soldOfCell _ = true ↔ _
    unfold soldOfCell
    simp [List.contains, List.elem_iff]
  · intro h
    show likesOfCell _ = 0
    unfold likesOfCell
    rw [h]
  · intro q h
    show likesOfCell _ = q.trunc
    unfold likesOfCell
    rw [h]

/-- Witness for the amended C4 at a concrete sheet and row. -/
theorem C4_load_normalization_witness :
    ∃ row ∈ negLikesSheet.rows,
      itemOfRow negLikesSheet.header
          [Cell.num 1, Cell.str "a", Cell.num 5, Cell.num 0, Cell.num 5,
            Cell.str "u", Cell.str "no", Cell.num (-5)] =
        itemOfRow negLikesSheet.header row ∧
      ((itemOfRow negLikesSheet.header
          [Cell.num 1, Cell.str "a", Cell.num 5, Cell.num 0, Cell.num 5,
            Cell.str "u", Cell.str "no", Cell.num (-5)]).sold = true ↔
        pyLower (pyStrip (getCol negLikesSheet.header row "sold").toStr) ∈ truthyTokens) ∧
      (parseCellNum (getCol negLikesSheet.header row "likes") = none →
        (itemOfRow negLikesSheet.header
          [Cell.num 1, Cell.str "a", Cell.num 5, Cell.num 0, Cell.num 5,
            Cell.str "u", Cell.str "no", Cell.num (-5)]).likes = 0) ∧
      (∀ q, parseCellNum (getCol negLikesSheet.header row "likes") = some q →
        (itemOfRow negLikesSheet.header
          [Cell.num 1, Cell.str "a", Cell.num 5, Cell.num 0, Cell.num 5,
            Cell.str "u", Cell.str "no", Cell.num (-5)]).likes = q.trunc) :=
  C4_load_normalization negLikesSheet
    (itemOfRow negLikesSheet.header
      [Cell.num 1, Cell.str "a", Cell.num 5, Cell.num 0, Cell.num 5,
        Cell.str "u", Cell.str "no", Cell.num (-5)]) (by decide)

/-- Claim C8 counterexample: the stored `expected_price` is the result of
the IEEE-754 double evaluation of `price * (1 - discount/100.0)`, which at
the exact half-integer tie `price = 10`, `discount = 95` stores 1, while
the specification's formula `round(price * (1 - discount/100))` — Python's
`round`, half to even, on the exact value 0.5 — gives 0. -/
theorem C8_counterexample :
    expectedPriceSpec 10 95 = 0 ∧
    expectedPriceSrc 10 95 = 1 ∧
    (admin_submit failPutEnv demoSheet "d" 10 95 false
        (some (.decodable smallImage))).appendedRow.map (fun r => dictGet r "expected_price")
      = some (Cell.num 1) := by
  decide

/-- Claim C8 (amended): for every appended item the stored
`expected_price` equals `int(round(price * (1 - discount/100.0)))`
evaluated in binary64 floating point (`expectedPriceSrc`); away from exact
half-integer ties this agrees with the exact formula, but at ties the
float evaluation decides the result. -/
theorem C8_expected_price (env : GithubEnv) (s : Sheet) (inputName : String)
    (inputPrice inputDiscount : Nat) (inputSold : Bool) (f : FileLike) (jb : JpegBytes)
    (hname : (inputName == "") = false)
    (hjb : compress_image_file f 1200 85 = some jb) :
    ∃ r, (admin_submit env s inputName inputPrice inputDiscount inputSold
        (some f)).appendedRow = some r ∧
      dictGet r "expected_price" = Cell.num (expectedPriceSrc inputPrice inputDiscount) := by
  rw [admin_submit_eq env s inputPrice inputDiscount inputSold hname hjb]
  exact ⟨_, rfl, rfl⟩

/-- Witness for the amended C8: at price 349 and discount 7 percent the
stored value is 325, where the float and the exact formula agree. -/
theorem C8_expected_price_witness :
    (∃ r, (admin_submit failPutEnv demoSheet "x" 349 7 false
        (some (.decodable smallImage))).appendedRow = some r ∧
      dictGet r "expected_price" = Cell.num (expectedPriceSrc 349 7)) ∧
    expectedPriceSrc 349 7 = 325 ∧ expectedPriceSpec 349 7 = 325 :=
  ⟨C8_expected_price failPutEnv demoSheet "x" 349 7 false (.decodable smallImage)
      ⟨800, 600, 85, 1000⟩ (by decide) (by decide),
    by decide, by decide⟩

lemma setCell_getD_self (row : List Cell) (i : Nat) (v : Cell) :
    (setCell row i v).getD i (Cell.str "") = v := by
  unfold setCell
  have hlen : i < (row ++ List.replicate (i + 1 - row.length) (Cell.str "")).length := by
    simp only [List.length_append, List.length_replicate]
    omega
  rw [List.getD_eq_getElem?_getD, List.getElem?_set_self hlen]
  rfl

lemma setCell_getD_ne (row : List Cell) {i j : Nat} (v : Cell) (h : j ≠ i) :
    (setCell row i v).getD j (Cell.str "") = row.getD j (Cell.str "") := by
  unfold setCell
  rw [List.getD_eq_getElem?_getD, List.getElem?_set_ne (Ne.symm h),
    List.getD_eq_getElem?_getD]
  by_cases hj : j < row.length
  · rw [List.getElem?_append_left hj]
  · rw [List.getElem?_append_right (by omega), List.getElem?_replicate]
    rw [List.getElem?_eq_none (by omega)]
    by_cases hr : j - row.length < i + 1 - row.length
    · rw [if_pos hr]
      rfl
    · rw [if_neg hr]

lemma applyUpdates_getD_untouched (header : List String) (upd : List (String × Cell)) :
    ∀ (row : List Cell) (j : Nat), (∀ kv ∈ upd, firstIdx? header kv.1 ≠ some j) →
      (applyUpdates header row upd).getD j (Cell.str "") = row.getD j (Cell.str "") := by
  induction upd with
  | nil => intro row j _; rfl
  | cons kv t ih =>
    intro row j h
    have hstep : applyUpdates header row (kv :: t) =
        applyUpdates header
          (match firstIdx? header kv.1 with
            | some i => setCell row i kv.2
            | none => row) t := rfl
    rw [hstep]
    have ht : ∀ kv' ∈ t, firstIdx? header kv'.1 ≠ some j :=
      fun kv' hkv' => h kv' (List.mem_cons_of_mem _ hkv')
    rw [ih _ j ht]
    cases hf : firstIdx? header kv.1 with
    | none => rfl
    | some i =>
      have hij : j ≠ i := by
        intro hji
        exact h kv (by simp) (by rw [hf, hji])
      exact setCell_getD_ne row kv.2 hij

lemma updateRows_snd (header : List String) (itemId : String) (upd : List (String × Cell))
    (rows : List (List Cell)) :
    (updateRows header itemId upd rows).2 =
      rows.any (fun r => recordGetStr header r "id" == itemId) := by
  induction rows with
  | nil => rfl
  | cons r rs ih =>
    cases hc : (recordGetStr header r "id" == itemId) with
    | true => simp [updateRows, hc]
    | false => simp [updateRows, hc, ih]

lemma updateRows_not_found (header : List String) (itemId : String)
    (upd : List (String × Cell)) (rows : List (List Cell))
    (h : (updateRows header itemId upd rows).2 = false) :
    (updateRows header itemId upd rows).1 = rows := by
  induction rows with
  | nil => rfl
  | cons r rs ih =>
    cases hc : (recordGetStr header r "id" == itemId) with
    | true => simp [updateRows, hc] at h
    | false =>
      simp only [updateRows, hc, Bool.false_eq_true, if_false] at h ⊢
      rw [ih h]

lemma updateRows_match (header : List String) (itemId : String) (upd : List (String × Cell))
    (rows : List (List Cell)) :
    ∀ i, matchIdx? header itemId rows = some i →
      (updateRows header itemId upd rows).1 =
        rows.take i ++ [applyUpdates header (rows.getD i []) upd] ++ rows.drop (i + 1) ∧
      recordGetStr header (rows.getD i []) "id" = itemId ∧
      ∀ j, j < i → ¬ recordGetStr header (rows.getD j []) "id" = itemId := by
  induction rows with
  | nil => intro i h; simp [matchIdx?] at h
  | cons r rs ih =>
    intro i h
    cases hc : (recordGetStr header r "id" == itemId) with
    | true =>
      simp only [matchIdx?, hc, if_true] at h
      obtain rfl : (0 : Nat) = i := Option.some_inj.mp h
      refine ⟨by simp [updateRows, hc], beq_iff_eq.mp hc, ?_⟩
      intro j hj
      omega
    | false =>
      simp only [matchIdx?, hc, Bool.false_eq_true, if_false] at h
      cases hm : matchIdx? header itemId rs with
      | none => rw [hm] at h; simp at h
      | some j =>
        rw [hm] at h
        simp only [Option.map_some'] at h
        obtain rfl : j + 1 = i := Option.some_inj.mp h
        obtain ⟨h1, h2, h3⟩ := ih j hm
        refine ⟨?_, by simpa using h2, ?_⟩
        · simp only [updateRows, hc, Bool.false_eq_true, if_false]
          simp only [List.take_succ_cons, List.drop_succ_cons, List.getD_cons_succ]
          rw [h1]
          simp
        · intro jj hjj
          cases jj with
          | zero =>
            simp only [List.getD_cons_zero]
            exact fun hh => by simp [beq_iff_eq.mpr hh] at hc
          | succ k =>
            simp only [List.getD_cons_succ]
            exact h3 k (by omega)

/-- Claim C5: `update_sheet_row_by_id` scans rows top to bottom, reports
whether some row's stringified id matches, returns the table unchanged
(and `False`, no exception) when no row matches, rewrites exactly the
first matching row when one exists — all earlier rows do not match — and
inside that row touches only columns named by an update key that occurs in
the header. -/
theorem C5_update_by_id (s : Sheet) (itemId : String) (upd : List (String × Cell)) :
    ((update_sheet_row_by_id s itemId upd).1.header = s.header) ∧
    ((update_sheet_row_by_id s itemId upd).2 = true ↔
      ∃ r ∈ s.rows, recordGetStr s.header r "id" = itemId) ∧
    ((update_sheet_row_by_id s itemId upd).2 = false →
      (update_sheet_row_by_id s itemId upd).1 = s) ∧
    (∀ i, matchIdx? s.header itemId s.rows = some i →
      (update_sheet_row_by_id s itemId upd).1.rows =
        s.rows.take i ++ [applyUpdates s.header (s.rows.getD i []) upd] ++
          s.rows.drop (i + 1) ∧
      recordGetStr s.header (s.rows.getD i []) "id" = itemId ∧
      ∀ j, j < i → ¬ recordGetStr s.header (s.rows.getD j []) "id" = itemId) ∧
    (∀ row j, (∀ kv ∈ upd, firstIdx? s.header kv.1 ≠ some j) →
      (applyUpdates s.header row upd).getD j (Cell.str "") =
        row.getD j (Cell.str "")) := by
  refine ⟨rfl, ?_, ?_, ?_, ?_⟩
  · show (updateRows s.header itemId upd s.rows).2 = true ↔ _
    rw [updateRows_snd]
    simp [List.any_eq_true]
  · intro h
    show ({ s with rows := (updateRows s.header itemId upd s.rows).1 } : Sheet) = s
    rw [updateRows_not_found s.header itemId upd s.rows h]
  · intro i hi
    exact updateRows_match s.header itemId upd s.rows i hi
  · intro row j h
    exact applyUpdates_getD_untouched s.header upd row j h

/-- Witness for C5: on the one-row sheet, updating a missing id "9" leaves
the sheet unchanged and reports `False`; updating the present id "7" finds
the first (index 0) matching row. -/
theorem C5_update_by_id_witness :
    ((update_sheet_row_by_id demoSheet "9" (toggle_sold_update_dict false)).1 = demoSheet) ∧
    ((update_sheet_row_by_id demoSheet "7" (toggle_sold_update_dict false)).1.rows =
      demoSheet.rows.take 0 ++
        [applyUpdates demoSheet.header (demoSheet.rows.getD 0 []) (toggle_sold_update_dict false)]
        ++ demoSheet.rows.drop 1 ∧
      recordGetStr demoSheet.header (demoSheet.rows.getD 0 []) "id" = "7" ∧
      ∀ j, j < 0 → ¬ recordGetStr demoSheet.header (demoSheet.rows.getD j []) "id" = "7") :=
  ⟨(C5_update_by_id demoSheet "9" (toggle_sold_update_dict false)).2.2.1 (by decide),
   (C5_update_by_id demoSheet "7" (toggle_sold_update_dict false)).2.2.2.1 0 (by decide)⟩

/-- Claim C6: `verify_admin_login` succeeds exactly when some stored row's
trimmed username equals the trimmed input and its stored hash equals the
hex SHA-256 of the password's UTF-8 bytes; a prior `signup_admin` with the
same credentials makes it succeed; a password whose digest differs fails;
and an absent admins worksheet always fails closed. -/
theorem C6_verify_login (u p : String) :
    (verify_admin_login none u p = false) ∧
    (∀ ws : Sheet, verify_admin_login (some ws) u p = true ↔
      ∃ r ∈ ws.rows, pyStrip (recordGetStr ws.header r "username") = pyStrip u ∧
        recordGetStr ws.header r "hashed_password" = hash_password p) ∧
    (verify_admin_login (some (signup_admin none u p)) u p = true) ∧
    (∀ ws : Sheet, ws.header = ["username", "hashed_password"] →
      verify_admin_login (some (signup_admin (some ws) u p)) u p = true) ∧
    (∀ p', hash_password p' ≠ hash_password p →
      verify_admin_login (some (signup_admin none u p)) u p' = false) := by
  have hiff : ∀ ws : Sheet, verify_admin_login (some ws) u p = true ↔
      ∃ r ∈ ws.rows, pyStrip (recordGetStr ws.header r "username") = pyStrip u ∧
        recordGetStr ws.header r "hashed_password" = hash_password p := by
    intro ws
    show (ws.rows.any _) = true ↔ _
    simp [List.any_eq_true, Bool.and_eq_true, beq_iff_eq]
  refine ⟨rfl, hiff, ?_, ?_, ?_⟩
  · show ((pyStrip u == pyStrip u && (hash_password p == hash_password p)) || false) = true
    simp
  · intro ws h
    rw [hiff (signup_admin (some ws) u p)]
    refine ⟨[Cell.str u, Cell.str (hash_password p)], ?_, ?_, ?_⟩
    · exact List.mem_append_right _ (by simp)
    · rw [show (signup_admin (some ws) u p).header = ws.header from rfl, h]
      rfl
    · rw [show (signup_admin (some ws) u p).header = ws.header from rfl, h]
      rfl
  · intro p' h
    show ((pyStrip u == pyStrip u && (hash_password p == hash_password p')) || false) = false
    have h2 : (hash_password p == hash_password p') = false :=
      beq_eq_false_iff_ne.mpr (Ne.symm h)
    rw [h2]
    simp

/-- Witness for C6: concrete accounts; the flipped password differs in one
character and its digest is computed to differ. -/
theorem C6_verify_login_witness :
    verify_admin_login none "alice" "secret" = false ∧
    verify_admin_login (some (signup_admin none "alice" "secret")) "alice" "secret" = true ∧
    verify_admin_login
      (some (signup_admin (some (signup_admin none "bob" "pw")) "alice" "secret"))
      "alice" "secret" = true ∧
    verify_admin_login (some (signup_admin none "alice" "secret")) "alice" "secreT" = false :=
  ⟨(C6_verify_login "alice" "secret").1,
   (C6_verify_login "alice" "secret").2.2.1,
   (C6_verify_login "alice" "secret").2.2.2.1 (signup_admin none "bob" "pw") rfl,
   (C6_verify_login "alice" "secret").2.2.2.2 "secreT" (by decide)⟩

/-- Claim C7: a decodable image wider than the maximum is resized to
exactly the maximum width with height `⌊maxW * h / w⌋` (the aspect ratio
preserved within rounding, as the two division bounds state); a narrower
image keeps its dimensions; both are re-encoded at the configured quality;
a decode failure yields no output at all. -/
theorem C7_image_pipeline (maxW q : Nat) :
    (compress_image_file .corrupt maxW q = none) ∧
    (∀ img : SrcImage, ∃ jb, compress_image_file (.decodable img) maxW q = some jb ∧
      jb.quality = q ∧ jb.size = img.jpegSize ∧
      (maxW < img.width →
        jb.width = maxW ∧ jb.height = maxW * img.height / img.width ∧
        jb.height * img.width ≤ maxW * img.height ∧
        maxW * img.height < (jb.height + 1) * img.width) ∧
      (¬ maxW < img.width → jb.width = img.width ∧ jb.height = img.height)) := by
  refine ⟨rfl, ?_⟩
  intro img
  dsimp only [compress_image_file]
  by_cases h : maxW < img.width
  · rw [if_pos h]
    refine ⟨_, rfl, rfl, rfl, fun _ => ⟨rfl, rfl, ?_, ?_⟩, fun hc => absurd h hc⟩
    · exact Nat.div_mul_le_self _ _
    · have hw : 0 < img.width := by omega
      have e1 := Nat.div_add_mod (maxW * img.height) img.width
      have e2 := Nat.mod_lt (maxW * img.height) hw
      calc maxW * img.height
          = img.width * (maxW * img.height / img.width) + maxW * img.height % img.width :=
            e1.symm
        _ < img.width * (maxW * img.height / img.width) + img.width := by omega
        _ = (maxW * img.height / img.width + 1) * img.width := by ring
  · rw [if_neg h]
    exact ⟨_, rfl, rfl, rfl, fun hc => absurd hc h, fun _ => ⟨rfl, rfl⟩⟩

/-- Witness for C7 at the default configuration (1200, 85): a 2400x1000
image comes out 1200x500, an 800x600 image keeps its dimensions, a corrupt
file yields nothing. -/
theorem C7_image_pipeline_witness :
    compress_image_file .corrupt 1200 85 = none ∧
    (∃ jb, compress_image_file (.decodable ⟨2400, 1000, 5⟩) 1200 85 = some jb ∧
      jb.quality = 85 ∧ jb.size = 5 ∧ jb.width = 1200 ∧ jb.height = 500 ∧
      jb.height * 2400 ≤ 1200 * 1000 ∧ 1200 * 1000 < (jb.height + 1) * 2400) ∧
    (∃ jb, compress_image_file (.decodable ⟨800, 600, 7⟩) 1200 85 = some jb ∧
      jb.width = 800 ∧ jb.height = 600) := by
  obtain ⟨h1, h2⟩ := C7_image_pipeline 1200 85
  refine ⟨h1, ?_, ?_⟩
  · obtain ⟨jb, hjb, hq, hs, himp, -⟩ := h2 ⟨2400, 1000, 5⟩
    obtain ⟨hw, hh, hb1, hb2⟩ := himp (by decide)
    exact ⟨jb, hjb, hq, hs, hw, hh.trans (by decide), hb1, hb2⟩
  · obtain ⟨jb, hjb, -, -, -, himp⟩ := h2 ⟨800, 600, 7⟩
    obtain ⟨hw, hh⟩ := himp (by decide)
    exact ⟨jb, hjb, hw, hh⟩

lemma foldl_size_filter (p : TreeEntry → Bool) (l : List TreeEntry) (acc : Nat) :
    l.foldl (fun total item => if p item then total + item.size else total) acc =
      acc + ((l.filter p).map TreeEntry.size).sum := by
  induction l generalizing acc with
  | nil => simp
  | cons e t ih =>
    cases hp : p e with
    | true =>
      simp only [List.foldl_cons, hp, if_true, List.filter_cons, List.map_cons, List.sum_cons]
      rw [ih]
      omega
    | false =>
      simp only [List.foldl_cons, hp, Bool.false_eq_true, if_false, List.filter_cons,
        List.map_cons]
      rw [ih]

/-- Claim C9: `get_images_folder_size` returns the sum of the sizes of
exactly the blob entries under the images directory, and 0 on a transport
failure or any non-200 response. -/
theorem C9_folder_size (env : GithubEnv) :
    (env.treeResp = .netError → get_images_folder_size env = 0) ∧
    (∀ status tree, env.treeResp = .ok status tree → status ≠ 200 →
      get_images_folder_size env = 0) ∧
    (∀ tree, env.treeResp = .ok 200 tree →
      get_images_folder_size env =
        ((tree.filter (fun e => e.typ == "blob"
            && strStartsWith (stripSlashes env.imagesPath ++ "/") e.path)).map
          TreeEntry.size).sum) := by
  refine ⟨?_, ?_, ?_⟩
  · intro h
    simp [get_images_folder_size, h]
  · intro status tree h hs
    simp [get_images_folder_size, h, hs]
  · intro tree h
    simp only [get_images_folder_size, h]
    rw [if_neg (by omega)]
    rw [foldl_size_filter]
    exact Nat.zero_add _

/-- Witness for C9: the sum over the concrete tree, a non-200 response and
a transport failure. -/
theorem C9_folder_size_witness :
    get_images_folder_size { quotaEnv with treeResp := .netError } = 0 ∧
    get_images_folder_size { quotaEnv with treeResp := .ok 403 [⟨"blob", "images/a.jpg", 5⟩] }
      = 0 ∧
    get_images_folder_size quotaEnv =
      ((([⟨"blob", "images/a.jpg", 400000000⟩] : List TreeEntry).filter
          (fun e => e.typ == "blob"
            && strStartsWith (stripSlashes quotaEnv.imagesPath ++ "/") e.path)).map
        TreeEntry.size).sum ∧
    get_images_folder_size quotaEnv = 400000000 :=
  ⟨(C9_folder_size _).1 rfl,
   (C9_folder_size _).2.1 403 [⟨"blob", "images/a.jpg", 5⟩] rfl (by omega),
   (C9_folder_size quotaEnv).2.2 [⟨"blob", "images/a.jpg", 400000000⟩] rfl,
   by decide⟩

/-- Claim C10: the admin flow stores the sold flag as the string "TRUE" or
"FALSE" — in the appended row dict on add, and in the update dict on
toggle — and `load_data` maps both back to the original boolean,
because "true" is in the truthy-token set and "false" is not. -/
theorem C10_sold_roundtrip (b : Bool) :
    (soldOfCell (Cell.str (if b then "TRUE" else "FALSE")) = b) ∧
    (∀ env s inputName inputPrice inputDiscount f jb, (inputName == "") = false →
      compress_image_file f 1200 85 = some jb → "sold" ∈ s.header →
      ∃ it, load_data (admin_submit env s inputName inputPrice inputDiscount b
          (some f)).sheet = load_data s ++ [it] ∧ it.sold = b) ∧
    (∀ header row, "sold" ∈ header →
      soldOfCell (getCol header (applyUpdates header row (toggle_sold_update_dict b))
        "sold") = b) := by
  refine ⟨?_, ?_, ?_⟩
  · cases b <;> decide
  · intro env s inputName inputPrice inputDiscount f jb hname hjb hsold
    rw [admin_submit_eq env s inputPrice inputDiscount b hname hjb]
    refine ⟨_, load_data_append s _, ?_⟩
    show (itemOfRow s.header _).sold = b
    unfold itemOfRow
    dsimp only
    rw [getCol_map_dictGet _ hsold]
    show soldOfCell (Cell.str (if b then "TRUE" else "FALSE")) = b
    cases b <;> decide
  · intro header row hsold
    obtain ⟨i, hi⟩ := firstIdx?_of_mem hsold
    have happ : applyUpdates header row (toggle_sold_update_dict b) =
        setCell row i (Cell.str (if b then "TRUE" else "FALSE")) := by
      unfold applyUpdates toggle_sold_update_dict
      simp [hi]
    rw [happ]
    simp only [getCol, hi]
    rw [setCell_getD_self]
    cases b <;> decide

/-- Witness for C10 with the flag set: adding an item marked sold reads
back `sold = true`, and toggling a row's sold cell to "TRUE" reads back
`true`. -/
theorem C10_sold_roundtrip_witness :
    (soldOfCell (Cell.str (if true then "TRUE" else "FALSE")) = true) ∧
    (∃ it, load_data (admin_submit failPutEnv demoSheet "x" 1 0 true
        (some (.decodable smallImage))).sheet = load_data demoSheet ++ [it] ∧
      it.sold = true) ∧
    soldOfCell (getCol stdHeader (applyUpdates stdHeader (demoSheet.rows.getD 0 [])
      (toggle_sold_update_dict true)) "sold") = true :=
  ⟨(C10_sold_roundtrip true).1,
   (C10_sold_roundtrip true).2.1 failPutEnv demoSheet "x" 1 0 (.decodable smallImage)
     ⟨800, 600, 85, 1000⟩ (by decide) (by decide) (by decide),
   (C10_sold_roundtrip true).2.2 stdHeader (demoSheet.rows.getD 0 []) (by decide)⟩

end MyShop
